import Mathlib

set_option maxRecDepth 8192

/-!
Verification of the SelfMeAI-AgendaBot core (intent routing, temporal-entity
extraction policy, candidate disambiguation, reminder scheduling) against its
natural-language specification.

The Python sources (`src/nlp.py`, `src/db.py`, `src/main.py`, `src/scheduler.py`)
are shallowly embedded below:

* pure string/list manipulation is translated directly;
* machine integers are `Nat`/`Int` (Python ints are unbounded, epoch seconds
  are `Int`);
* external collaborators (the `dateparser` search, the `rapidfuzz` scorer, the
  SQLite store, the APScheduler job registry, Telegram delivery and the local
  `strftime` formatting) are passed in as explicit function arguments or
  modelled as data, mirroring how the code reaches them through narrow calls;
* handler side effects (replies, DB writes, scheduled jobs) are reified into
  an explicit effect list, and the per-conversation `user_data` pending entry
  into an explicit optional-state value threaded through each handler.

Unless noted otherwise every definition mirrors the corresponding Python
function of the same name.
-/

/-! ## Character/string primitives shared by the embedding -/

/-- Python `\w` (word character) for the ASCII fragment relevant to the
keyword tables and regexes of `src/nlp.py`: letters, digits, underscore. -/
def isWordChar (c : Char) : Bool := c.isAlphanum || c == '_'

/-- Python `\s` for the whitespace characters that can actually occur in the
chat texts considered here. -/
def isPySpace (c : Char) : Bool := c == ' ' || c == '\t' || c == '\n' || c == '\r'

/-- Model of Python `str.lower` on the character ranges occurring in this
bot's Italian texts: ASCII `A`-`Z` and the Latin-1 uppercase letters
`À`-`Þ` (except the multiplication sign) are mapped 32 codepoints down;
everything else is unchanged. -/
def pyLowerChar (c : Char) : Char :=
  if 'A' ≤ c && c ≤ 'Z' then Char.ofNat (c.toNat + 32)
  else if 0xC0 ≤ c.toNat && c.toNat ≤ 0xDE && c.toNat != 0xD7 then Char.ofNat (c.toNat + 32)
  else c

/-- Model of Python `str.lower`. -/
def pyLower (s : String) : String := ⟨s.data.map pyLowerChar⟩

/-- Python `str.strip()` (both ends, whitespace). -/
def pyStrip (s : String) : String :=
  ⟨((s.data.dropWhile isPySpace).reverse.dropWhile isPySpace).reverse⟩

/-- `as` is a prefix of `bs`. -/
def listPrefixOf : List Char → List Char → Bool
  | [], _ => true
  | _ :: _, [] => false
  | a :: as, b :: bs => a == b && listPrefixOf as bs

/-- `needle` occurs as a contiguous run inside `hay`. -/
def listInfixOf : List Char → List Char → Bool
  | [], _ => true
  | _ :: _, [] => false
  | n :: ns, h :: t => listPrefixOf (n :: ns) (h :: t) || listInfixOf (n :: ns) t

/-- Python substring containment `k in t`. -/
def pyContains (t k : String) : Bool := listInfixOf k.data t.data

/-! ## `src/nlp.py`: keyword tables

`nlp.py` assigns `ADD_KWS`/`RECAP_KWS`/`MOVE_KWS`/`REMOVE_KWS` twice; the later
assignments (lines 25 and 30-32) shadow the earlier ones, so the values below
are the ones `detect_intent` actually reads.  `HELP_KWS` is defined in the
source (line 22) but never read by `detect_intent`. -/

def ADD_KWS : List String := ["metti", "aggiungi", "inserisci", "crea", "ricorda", "ricordami"]

def MOVE_KWS : List String := ["sposta", "rimanda", "posticipa", "anticipa", "modifica"]

def REMOVE_KWS : List String := ["rimuovi", "cancella", "elimina"]

def RECAP_KWS : List String := ["recap", "riepilogo", "mostra", "lista", "prossimi impegni"]

def HELP_KWS : List String := ["/help", "aiuto"]

/-! ## The `METTI_IN_AGENDA_RE` regex

`re.compile(r"\b(metti|aggiungi|inserisci|crea)\s+(in\s+)?agenda\b", re.IGNORECASE)`,
used by `detect_intent` through `.search` on the already-lowercased text.
The matcher below implements exactly this pattern (searching at every
position, word boundary before the verb and after `agenda`, greedy `\s+`,
optional `in` group with backtracking). -/

/-- Match a literal string at the head of the input, returning the rest. -/
def matchLit : List Char → List Char → Option (List Char)
  | [], s => some s
  | _, [] => none
  | p :: ps, c :: s => if p == c then matchLit ps s else none

/-- Match `\s+` at the head of the input (greedy; the regex continues with a
non-space character, so full consumption is exact). -/
def skipSpaces1 : List Char → Option (List Char)
  | c :: s => if isPySpace c then some (s.dropWhile isPySpace) else none
  | [] => none

/-- Match `agenda\b` at the head of the input. -/
def agendaEnd (l : List Char) : Bool :=
  match matchLit "agenda".toList l with
  | some [] => true
  | some (c :: _) => !isWordChar c
  | none => false

/-- Match `\s+(in\s+)?agenda\b` at the head of the input. -/
def afterVerb (l : List Char) : Bool :=
  match skipSpaces1 l with
  | none => false
  | some r =>
    (match matchLit "in".toList r with
     | some r2 =>
       (match skipSpaces1 r2 with
        | some r3 => agendaEnd r3
        | none => false)
     | none => false)
    || agendaEnd r

/-- Match `(metti|aggiungi|inserisci|crea)\s+(in\s+)?agenda\b` at the head. -/
def mettiTail (l : List Char) : Bool :=
  ["metti", "aggiungi", "inserisci", "crea"].any fun v =>
    match matchLit v.toList l with
    | some r => afterVerb r
    | none => false

/-- Scan every position, requiring a word boundary (`\b`) before the verb:
`prevWord` records whether the previous character was a word character. -/
def mettiScan : Bool → List Char → Bool
  | _, [] => false
  | prevWord, c :: rest =>
    (!prevWord && mettiTail (c :: rest)) || mettiScan (isWordChar c) rest

/-- `METTI_IN_AGENDA_RE.search(t)` as a Boolean (the code only uses truthiness). -/
def metti_in_agenda_re (t : String) : Bool := mettiScan false t.toList

/-! ## `detect_intent` (src/nlp.py lines 34-49) -/

/-- The add test of `detect_intent` (line 38): the regex or an `ADD_KWS`
keyword occurring in the lowered, stripped text. -/
def addTrig (t : String) : Bool := metti_in_agenda_re t || ADD_KWS.any (fun k => pyContains t k)

/-- The move test (line 40). -/
def moveTrig (t : String) : Bool := MOVE_KWS.any (fun k => pyContains t k)

/-- The remove test (line 42). -/
def removeTrig (t : String) : Bool := REMOVE_KWS.any (fun k => pyContains t k)

/-- The recap test (line 46): a `RECAP_KWS` keyword, or the exact messages
`agenda` / `agenda?`. -/
def recapTrig (t : String) : Bool :=
  RECAP_KWS.any (fun k => pyContains t k) || t == "agenda" || t == "agenda?"

/-- The (unused in the source) help keyword test. -/
def helpTrig (t : String) : Bool := HELP_KWS.any (fun k => pyContains t k)

/-- Intent classifier, translated clause by clause from `detect_intent`:
lower+strip, then the add check (regex or `ADD_KWS` containment), then move,
then remove, then recap (keywords or the exact messages `agenda`/`agenda?`),
else `unknown`. -/
def detect_intent (text : String) : String :=
  let t := pyStrip (pyLower text)
  if addTrig t then "add"
  else if moveTrig t then "move"
  else if removeTrig t then "remove"
  else if recapTrig t then "recap"
  else "unknown"

/-- The classifier as claim C1 describes it (same keyword tables, but checked
in the spec's precedence order: move, remove, add, recap, then help).  Stated
from the spec's words only, for comparison against `detect_intent`. -/
def detect_intent_claim (text : String) : String :=
  let t := pyStrip (pyLower text)
  if moveTrig t then "move"
  else if removeTrig t then "remove"
  else if addTrig t then "add"
  else if recapTrig t then "recap"
  else if helpTrig t then "help"
  else "unknown"

/-! ## Clock-time regexes

`extract_datetime` decides whether the text carries an explicit clock time
with `re.search(r"\b\d{1,2}(:\d{2})\b", text)` - note the minutes group is
mandatory.  Claim C6 instead describes the pattern as "a bare hour `H` or
`H:MM`", i.e. `\b\d{1,2}(:\d{2})?\b`; both are implemented below. -/

def isAsciiDigit (c : Char) : Bool := '0' ≤ c && c ≤ '9'

/-- `\b` holds after the last matched (word) character. -/
def endsBoundary : List Char → Bool
  | [] => true
  | c :: _ => !isWordChar c

/-- Match `:\d{2}\b` at the head of the input. -/
def colonTail : List Char → Bool
  | ':' :: m1 :: m2 :: rest => isAsciiDigit m1 && isAsciiDigit m2 && endsBoundary rest
  | _ => false

/-- Match `\d{1,2}(:\d{2})\b` at the head of the input (both the greedy
two-digit hour and the one-digit backtrack are covered; for a fixed start
position at most one of them can succeed). -/
def timeMatchCodeAt : List Char → Bool
  | [] => false
  | a :: rest1 =>
    isAsciiDigit a &&
      ((match rest1 with
        | b :: rest2 => isAsciiDigit b && colonTail rest2
        | [] => false)
       || colonTail rest1)

/-- Match `\d{1,2}(:\d{2})?\b` at the head of the input (all backtracking
paths of the optional minutes group). -/
def timeMatchClaimAt : List Char → Bool
  | [] => false
  | a :: rest1 =>
    isAsciiDigit a &&
      ((match rest1 with
        | b :: rest2 => isAsciiDigit b && (colonTail rest2 || endsBoundary rest2)
        | [] => false)
       || colonTail rest1 || endsBoundary rest1)

/-- Scan for a match at any position whose left context is a word boundary. -/
def timeScan (matchAt : List Char → Bool) : Bool → List Char → Bool
  | _, [] => false
  | prevWord, c :: rest =>
    (!prevWord && matchAt (c :: rest)) || timeScan matchAt (isWordChar c) rest

/-- `bool(re.search(r"\b\d{1,2}(:\d{2})\b", text))` - the source's check. -/
def has_time_re (text : String) : Bool := timeScan timeMatchCodeAt false text.data

/-- The clock-time pattern as claim C6 words it: a bare hour `H` or `H:MM`
(`\b\d{1,2}(:\d{2})?\b`).  Stated from the spec's words only. -/
def has_time_claim (text : String) : Bool := timeScan timeMatchClaimAt false text.data

/-! ## The `datetime` values flowing through `extract_datetime`

Python `datetime` objects are modelled by wall-clock minutes since an epoch
(`tmin`), seconds and microseconds, plus the attached UTC offset in minutes
(`none` = naive).  `pytz`-aware comparisons and conversions act on the
absolute instant `tmin - offset`; Europe/Rome is modelled with its standard
offset (+60 minutes - the claims under verification do not depend on the DST
value, only on offsets being respected). -/

structure PyDT where
  tmin : Int
  sec : Nat
  usec : Nat
  tzOffset : Option Int
deriving DecidableEq

/-- `dt.hour`. -/
def PyDT.hour (d : PyDT) : Int := d.tmin % 1440 / 60

/-- `dt.minute`. -/
def PyDT.minute (d : PyDT) : Int := d.tmin % 60

def ROME_OFFSET : Int := 60

/-- `ROME_TZ.localize(dt)` on a naive datetime: attach the offset, keep the
wall-clock reading. -/
def romeLocalize (d : PyDT) : PyDT := { d with tzOffset := some ROME_OFFSET }

/-- `dt.astimezone(ROME_TZ)` on an aware datetime: same instant, wall clock
re-read in Rome.  (On a naive datetime `extract_datetime` never calls this.) -/
def romeAstimezone (d : PyDT) : PyDT :=
  match d.tzOffset with
  | none => d
  | some o => { d with tmin := d.tmin - o + ROME_OFFSET, tzOffset := some ROME_OFFSET }

/-- `dt.replace(hour=9, minute=0, second=0, microsecond=0)`. -/
def setNineAM (d : PyDT) : PyDT :=
  { d with tmin := d.tmin - d.tmin % 1440 + 540, sec := 0, usec := 0 }

/-! ## `extract_datetime` (src/nlp.py lines 51-71)

The external `dateparser.search.search_dates` call is the `search_dates`
argument (`None` is modelled as the empty list - both are falsy and the code
indexes `results[0]` only when the result is truthy).  Note the source never
uses its `now_dt` parameter: `search_dates` is called without a
`RELATIVE_BASE`, so the external parser resolves relative expressions
against the ambient current clock instead. -/

/-- The timezone normalisation of lines 63-66: localize a naive result to
Rome, convert an aware one. -/
def normRome (dt0 : PyDT) : PyDT :=
  match dt0.tzOffset with
  | none => romeLocalize dt0
  | some _ => romeAstimezone dt0

def extract_datetime (search_dates : String → List (String × PyDT)) (text : String)
    (now_dt : PyDT) : Option PyDT :=
  match search_dates text with
  | [] => none
  | (_, dt0) :: _ =>
    let dt1 := normRome dt0
    let dt2 := if dt1.hour == 0 && dt1.minute == 0 && !has_time_re text then setNineAM dt1 else dt1
    some dt2

/-- Model of the external `dateparser.search.search_dates` behaviour on the
text `"domani alle 15"` ("tomorrow at 15"): called without `RELATIVE_BASE`
(as `extract_datetime` does), the library resolves "domani" against the
ambient current clock `clock_min`, yielding 15:00 on the day after the
ambient day.  Used to exhibit the ambient-clock dependence (claim C7). -/
def relSearchModel (clock_min : Int) (text : String) : List (String × PyDT) :=
  if text == "domani alle 15" then
    [("domani alle 15", ⟨(clock_min / 1440 + 1) * 1440 + 900, 0, 0, none⟩)]
  else []

/-- Model of the external `search_dates` on the date-only text
`"il 24 dicembre"`: an absolute date with no time parses to midnight
(day 20781 is an arbitrary future day index).  Used for claim C6. -/
def dicembreEnv (text : String) : List (String × PyDT) :=
  if text == "il 24 dicembre" then [("24 dicembre", ⟨20781 * 1440, 0, 0, none⟩)] else []

/-! ## `src/db.py`: the events table

The SQLite store is modelled as a list of rows.  `id` is the
`INTEGER PRIMARY KEY AUTOINCREMENT` column, so distinct rows carry distinct
ids.  Queries with `ORDER BY start_ts ASC` are served through the
`(user_id, start_ts)` index, whose entries are tie-broken by rowid; the model
therefore sorts by `(start_ts, id)` ascending.  Only the columns the core
reads are modelled. -/

structure EventRow where
  id : Nat
  user_id : Int
  chat_id : Int
  title : String
  start_ts : Int
deriving DecidableEq

/-- The `(id, title, start_ts)` row shape returned by the SELECTs. -/
abbrev Row := Nat × String × Int

/-- Ascending `(start_ts, id)` order used for `ORDER BY start_ts ASC`. -/
def rowOrd (a b : EventRow) : Prop :=
  a.start_ts < b.start_ts ∨ (a.start_ts = b.start_ts ∧ a.id ≤ b.id)

instance (a b : EventRow) : Decidable (rowOrd a b) := by unfold rowOrd; infer_instance

/-- `list_all_future(user_id, now_ts)` (src/db.py lines 42-48):
`SELECT id, title, start_ts FROM events WHERE user_id=? AND start_ts>=?
ORDER BY start_ts ASC`. -/
def list_all_future (db : List EventRow) (user_id : Int) (now_ts : Int) : List Row :=
  (List.insertionSort rowOrd
    (db.filter (fun e => decide (e.user_id = user_id) && decide (now_ts ≤ e.start_ts)))).map
    (fun e => (e.id, e.title, e.start_ts))

/-! ## SQLite `LIKE`

`find_candidates_by_title` filters with `title LIKE '%' || query.strip() || '%'`.
SQLite's default `LIKE` is case-insensitive for ASCII letters only; `%`
matches any character run and `_` any single character (no ESCAPE clause is
used). -/

/-- SQLite's `LIKE` case folding: ASCII letters only. -/
def likeFold (c : Char) : Char :=
  if 'A' ≤ c && c ≤ 'Z' then Char.ofNat (c.toNat + 32) else c

/-- SQLite `LIKE` pattern matching (pattern, then subject): `%` matches any
character run - equivalently, the rest of the pattern matches some suffix of
the subject - `_` matches one character, anything else matches one character
up to ASCII case folding. -/
def likeMatch : List Char → List Char → Bool
  | [], s => s.isEmpty
  | '%' :: ps, s => s.tails.any (likeMatch ps)
  | '_' :: ps, s =>
    (match s with
     | [] => false
     | _ :: t => likeMatch ps t)
  | p :: ps, s =>
    (match s with
     | [] => false
     | c :: t => likeFold p == likeFold c && likeMatch ps t)

/-- `find_candidates_by_title(user_id, title_query, now_ts)`
(src/db.py lines 64-71): same row filter as `list_all_future` plus
`title LIKE '%" ++ "..." ++ "%'`, ascending by start instant. -/
def find_candidates_by_title (db : List EventRow) (user_id : Int) (title_query : String)
    (now_ts : Int) : List Row :=
  let pat := '%' :: (pyStrip title_query).data ++ ['%']
  (List.insertionSort rowOrd
    (db.filter (fun e => decide (e.user_id = user_id) && decide (now_ts ≤ e.start_ts) &&
      likeMatch pat e.title.data))).map
    (fun e => (e.id, e.title, e.start_ts))

/-- Full (not merely ASCII) case-insensitive substring containment, the
reading claim C9 gives of the fallback: `title` contains the trimmed query,
case-insensitively.  Stated from the spec's words only. -/
def ciContains (title q : String) : Bool :=
  listInfixOf (pyLower (pyStrip q)).data (pyLower title).data

/-- ASCII-case-insensitive substring containment: what SQLite's
`LIKE '%' || q.strip() || '%'` amounts to once the query holds no `%`/`_`
wildcards. -/
def asciiCiContains (title q : String) : Bool :=
  listInfixOf ((pyStrip q).data.map likeFold) (title.data.map likeFold)

/-- `find_candidates_by_title` as claim C9 describes it: the owner's future
events whose title contains the trimmed query as a plain case-insensitive
substring, ascending by start instant.  Stated from the spec's words only. -/
def find_candidates_claim (db : List EventRow) (user_id : Int) (title_query : String)
    (now_ts : Int) : List Row :=
  (List.insertionSort rowOrd
    (db.filter (fun e => decide (e.user_id = user_id) && decide (now_ts ≤ e.start_ts) &&
      ciContains e.title title_query))).map
    (fun e => (e.id, e.title, e.start_ts))

/-! ## The `rapidfuzz` scorer

`find_best_matches` calls the external `fuzz.partial_ratio`; the embedding
takes the scorer as a function argument (`score : String → String → Nat`,
values on the 0-100 scale).  For concrete evaluations `partialScoreModel`
below models `partial_ratio`: the best Indel ratio (`200·lcs/(|a|+|w|)`) of
the query against the contiguous substrings of the title.  It takes the
maximum over every contiguous substring, a superset of the alignments
`rapidfuzz` scans, so it equals 100 exactly when the query occurs literally
in the title, and it upper-bounds the library score elsewhere; both concrete
uses below rely only on these two facts. -/

/-- One dynamic-programming row update for the longest common subsequence:
`prev` is the previous row (length `|a| + 1`), `left` the value just
computed on the current row. -/
def lcsNextRow (cb : Char) : List Char → List Nat → Nat → List Nat
  | [], _, _ => []
  | ca :: as, p0 :: p1 :: ps, left =>
    let v := if ca == cb then p0 + 1 else max left p1
    v :: lcsNextRow cb as (p1 :: ps) v
  | _ :: _, _, _ => []

/-- Length of the longest common subsequence of two character lists. -/
def lcsLen (a b : List Char) : Nat :=
  (b.foldl (fun prev cb => 0 :: lcsNextRow cb a prev 0) (List.replicate (a.length + 1) 0)).getLastD 0

/-- `fuzz.ratio` on the 0-100 scale (Indel similarity). -/
def indelRatio (a w : List Char) : Nat :=
  if a.length + w.length == 0 then 100 else 200 * lcsLen a w / (a.length + w.length)

/-- The nonempty prefixes of `l`. -/
def prefixesNE (l : List Char) : List (List Char) :=
  (List.range l.length).map (fun n => l.take (n + 1))

/-- All contiguous substrings of `l`. -/
def contSubstrings (l : List Char) : List (List Char) :=
  [] :: (l.tails).flatMap prefixesNE

/-- Model of the external `fuzz.partial_ratio(q, t)`. -/
def partialScoreModel (q t : String) : Nat :=
  (contSubstrings t.data).foldl (fun acc w => max acc (indelRatio q.data w)) 0

/-! ## `find_best_matches` (src/main.py lines 58-68) -/

/-- Python tuple comparison `(score, eid, title, start_ts) < ...`:
lexicographic, with strings compared by code points. -/
def charsLtB : List Char → List Char → Bool
  | _, [] => false
  | [], _ :: _ => true
  | a :: as, b :: bs => decide (a.toNat < b.toNat) || (a == b && charsLtB as bs)

/-- The scored-candidate tuple `(score, eid, title, start_ts)`. -/
abbrev Scored := Nat × Nat × String × Int

/-- Python `<` on scored tuples. -/
def scoredLt (a b : Scored) : Prop :=
  a.1 < b.1 ∨ (a.1 = b.1 ∧ (a.2.1 < b.2.1 ∨ (a.2.1 = b.2.1 ∧
    (charsLtB a.2.2.1.data b.2.2.1.data = true ∨
      (a.2.2.1 = b.2.2.1 ∧ a.2.2.2 < b.2.2.2)))))

instance (a b : Scored) : Decidable (scoredLt a b) := by unfold scoredLt; infer_instance

/-- `list.sort(reverse=True)` on tuples: a stable sort under the reversed
tuple order (CPython sorts descending, elements comparing equal keep their
original relative order; for a total order a stable descending sort is
uniquely determined, so stable insertion sort under `¬ <` is exact). -/
def scoredDesc (a b : Scored) : Prop := ¬ scoredLt a b

instance (a b : Scored) : Decidable (scoredDesc a b) := by unfold scoredDesc; infer_instance

/-- The `scored` list built by `find_best_matches` (lines 62-66): the query
is lowered and stripped, every future event's title is lowered and scored,
and tuples `(score, eid, title, start_ts)` with score ≥ 60 are kept, in
chronological order. -/
def scoredOf (score : String → String → Nat) (db : List EventRow) (user_id : Int)
    (query : String) (now_ts : Int) : List Scored :=
  (list_all_future db user_id now_ts).filterMap (fun r =>
    if 60 ≤ score (pyStrip (pyLower query)) (pyLower r.2.1) then
      some ((score (pyStrip (pyLower query)) (pyLower r.2.1), r.1, r.2.1, r.2.2) : Scored)
    else none)

/-- Dropping the score from a scored tuple (line 68). -/
def stripScore (x : Scored) : Row := (x.2.1, x.2.2.1, x.2.2.2)

/-- `find_best_matches(user_id, query, now_ts, limit=5)`: score every future
event title, keep scores ≥ 60, `sort(reverse=True)`, truncate to `limit`,
strip the score. -/
def find_best_matches (score : String → String → Nat) (db : List EventRow) (user_id : Int)
    (query : String) (now_ts : Int) (limit : Nat := 5) : List Row :=
  ((List.insertionSort scoredDesc (scoredOf score db user_id query now_ts)).take limit).map
    stripScore

/-- Descending by score only, ties stable (= original chronological order):
the sort claim C2 describes.  Stated from the spec's words only. -/
def scoreDescOnly (a b : Scored) : Prop := b.1 ≤ a.1

instance (a b : Scored) : Decidable (scoreDescOnly a b) := by unfold scoreDescOnly; infer_instance

/-- `find_best_matches` as claim C2 describes it: scores ≥ 60, sorted
descending by score with ties in chronological order.  Stated from the
spec's words only. -/
def find_best_matches_claim (score : String → String → Nat) (db : List EventRow) (user_id : Int)
    (query : String) (now_ts : Int) (limit : Nat := 5) : List Row :=
  ((List.insertionSort scoreDescOnly (scoredOf score db user_id query now_ts)).take limit).map
    stripScore

/-! ## `src/scheduler.py`: `ReminderScheduler.schedule_event_reminder`

`event_ts` is in epoch seconds (UTC).  `event_dt` is that instant read in
Rome; subtracting `timedelta(minutes=10)` from a `pytz`-aware datetime
shifts the absolute instant by exactly 600 seconds (the attached offset is
unchanged), and aware-datetime comparison compares instants, so the guard
`remind_dt <= now` is exactly `event_ts - 600 ≤ now_ts`.  A registered
one-shot APScheduler job is modelled by its `DateTrigger` instant and the
keyword arguments passed to `add_job`; the rendered text uses the external
Rome-local `strftime`, taken as the `fmtRome` argument. -/

structure Job where
  chat_id : Int
  text : String
  run_ts : Int
  misfire_grace_time : Nat
  coalesce : Bool
  max_instances : Nat
deriving DecidableEq

/-- The reminder message `f"⏰ Promemoria: '{title}' il {event_dt.strftime('%d/%m/%Y %H:%M')}"`. -/
def reminder_text (fmtRome : Int → String) (title : String) (event_ts : Int) : String :=
  "⏰ Promemoria: '" ++ title ++ "' il " ++ fmtRome event_ts

/-- `schedule_event_reminder(chat_id, title, event_ts)` at current instant
`now_ts` (epoch seconds): `none` = the silent no-op branch, `some job` = the
single `add_job` registration. -/
def schedule_event_reminder (fmtRome : Int → String) (now_ts : Int) (chat_id : Int)
    (title : String) (event_ts : Int) : Option Job :=
  let remind_ts := event_ts - 600
  if remind_ts ≤ now_ts then none
  else some ⟨chat_id, reminder_text fmtRome title event_ts, remind_ts, 60, true, 3⟩

/-! ## `src/main.py`: conversation state, effects, handlers

The per-conversation `context.user_data[PENDING_KEY]` dict is modelled by
`Option Pending` threaded through the handlers; a handler's side effects
(replies sent, DB writes, reminder scheduling) are reified as an `Eff` list
in call order.  The Rome-local `strftime` used by `fmt_event_line` is the
external `fmtDate` argument. -/

/-- The pending-disambiguation dict `{"type": ..., "candidates": ...,
("new_ts": ...)}`; `new_ts` is only set by the move handler (for remove
pendings the key is absent = `none`). -/
structure Pending where
  typ : String
  candidates : List Row
  new_ts : Option Int := none
deriving DecidableEq

/-- Observable handler effects, in call order. -/
inductive Eff where
  | reply (text : String)
  | remove_event (id : Nat)
  | update_event_time (id : Nat) (new_start_ts : Int)
  | schedule_reminder (chat_id : Int) (title : String) (event_ts : Int)
deriving DecidableEq

/-- A handler step: emitted effects plus the pending state it leaves. -/
structure StepOut where
  effs : List Eff
  pending : Option Pending
deriving DecidableEq

/-- `fmt_event_line(title, ts)` (src/main.py lines 52-55). -/
def fmt_event_line (fmtDate : Int → String) (title : String) (ts : Int) : String :=
  "• " ++ fmtDate ts ++ " — " ++ title

/-- Python `s[2:]` on `fmt_event_line`'s output (drops the bullet). -/
def dropBullet (s : String) : String := ⟨s.data.drop 2⟩

def MSG_INVALID_CHOICE : String := "Scelta non valida. Rispondi con un numero della lista."

def MSG_MOVE_RETRY : String :=
  "Non ho capito la nuova data/ora, riprova con 'sposta ... a ...'."

def MSG_FALLBACK : String :=
  "Dimmi se vuoi che <b>metta in agenda</b>, faccia un <b>recap</b>, <b>sposti</b> o <b>rimuova</b> qualcosa."

def MSG_REMOVE_NOTFOUND : String :=
  "Non ho trovato eventi da rimuovere. Specifica meglio il titolo o l’orario."

def MSG_EMPTY_AGENDA : String := "Agenda vuota da adesso in poi. ✨"

def RECAP_HEADER : String := "🗓️ <b>Prossimi impegni</b>:"

/-- `f"🗑️ Rimosso: {title} — {fmt_event_line(title, ts)[2:]}"`. -/
def removed_text (fmtDate : Int → String) (title : String) (ts : Int) : String :=
  "🗑️ Rimosso: " ++ title ++ " — " ++ dropBullet (fmt_event_line fmtDate title ts)

/-- `f"🔁 Spostato:<br><s>{old_line}</s><br>→ {new_line}"`. -/
def moved_text (fmtDate : Int → String) (title : String) (old_ts new_ts : Int) : String :=
  "🔁 Spostato:<br><s>" ++ fmt_event_line fmtDate title old_ts ++ "</s><br>→ " ++
    fmt_event_line fmtDate title new_ts

/-- Python `str.isdigit()` for the ASCII texts at hand: nonempty, all digits. -/
def pyIsDigit (s : String) : Bool := !s.data.isEmpty && s.data.all Char.isDigit

/-- `int(msg)` on an all-digit string. -/
def digitsToNat (l : List Char) : Nat := l.foldl (fun acc c => acc * 10 + (c.toNat - 48)) 0

/-- The action branches of `handle_numeric_choice` (lines 237-257) once the
chosen candidate `(event_id, title, ts)` is in hand: remove deletes and
replies; move with a falsy stored `new_ts` (absent, or zero - Python
`if not new_ts:`) replies the retry prompt; move with a real `new_ts`
updates, reschedules and replies; any other stored kind does nothing.
Every branch ends with the pending entry popped. -/
def apply_pending_choice (fmtDate : Int → String) (chat_id : Int) (pending : Pending)
    (event_id : Nat) (title : String) (ts : Int) : StepOut :=
  if pending.typ == "remove" then
    ⟨[.remove_event event_id, .reply (removed_text fmtDate title ts)], none⟩
  else if pending.typ == "move" then
    match pending.new_ts with
    | none => ⟨[.reply MSG_MOVE_RETRY], none⟩
    | some nts =>
      if nts == 0 then ⟨[.reply MSG_MOVE_RETRY], none⟩
      else ⟨[.update_event_time event_id nts, .schedule_reminder chat_id title nts,
             .reply (moved_text fmtDate title ts nts)], none⟩
  else ⟨[], none⟩

/-- `handle_numeric_choice` (src/main.py lines 223-257), with the incoming
message text and the stored pending state made explicit.  The two silent
`return`s (non-digit text, no pending entry) leave the state unchanged; the
out-of-range branch replies and returns before the final
`context.user_data.pop(PENDING_KEY, None)`, so the pending entry survives;
every action branch falls through to (or performs) the pop. -/
def handle_numeric_choice (fmtDate : Int → String) (chat_id : Int) (text : String)
    (st : Option Pending) : StepOut :=
  let msg := pyStrip text
  if !pyIsDigit msg then ⟨[], st⟩
  else match st with
  | none => ⟨[], none⟩
  | some pending =>
    let choice := digitsToNat msg.data
    let candidates := pending.candidates
    if choice < 1 ∨ min 5 candidates.length < choice then
      ⟨[.reply MSG_INVALID_CHOICE], some pending⟩
    else
      match candidates.get? (choice - 1) with
      | none => ⟨[], some pending⟩
      | some (event_id, title, ts) =>
        apply_pending_choice fmtDate chat_id pending event_id title ts

/-- `fallback_chat` (src/main.py lines 260-279): dispatch on the detected
intent.  The five intent handlers reach external collaborators
(`dateparser`, the DB, the scheduler), so they are taken as arguments; the
unknown-intent branch is the fixed clarification reply. -/
def fallback_chat (hAdd hRecap hRemove hMove hHelp : Option Pending → StepOut)
    (text : String) (st : Option Pending) : StepOut :=
  let t := pyStrip text
  let intent := detect_intent t
  if intent == "add" then hAdd st
  else if intent == "recap" then hRecap st
  else if intent == "remove" then hRemove st
  else if intent == "move" then hMove st
  else if intent == "help" then hHelp st
  else ⟨[.reply MSG_FALLBACK], st⟩

/-- The `filters.Regex(r"^[1-5]$")` gate on the numeric-choice handler
(src/main.py line 345): the whole message is a single digit `1`-`5`. -/
def is_choice_message (text : String) : Bool :=
  match text.data with
  | [c] => '1' ≤ c && c ≤ '5'
  | _ => false

/-- Message routing as registered in `main()` (src/main.py lines 344-346):
the numeric-choice handler takes a message iff the `^[1-5]$` filter matches,
every other text message goes to the intent router. -/
def route_message (fmtDate : Int → String) (hAdd hRecap hRemove hMove hHelp : Option Pending → StepOut)
    (chat_id : Int) (text : String) (st : Option Pending) : StepOut :=
  if is_choice_message text then handle_numeric_choice fmtDate chat_id text st
  else fallback_chat hAdd hRecap hRemove hMove hHelp text st

/-- The numbered candidate lines `f"{i}) {fmt_event_line(title, start_ts)[2:]}"`. -/
def numberedLines (fmtDate : Int → String) : Nat → List Row → List String
  | _, [] => []
  | i, (_, title, ts) :: rest =>
    (toString i ++ ") " ++ dropBullet (fmt_event_line fmtDate title ts)) ::
      numberedLines fmtDate (i + 1) rest

/-- The multi-candidate reply of `handle_remove` (src/main.py lines 165-171):
header with `min(5, len(candidates))`, a blank line, then the first five
candidates numbered from 1. -/
def remove_choices_text (fmtDate : Int → String) (candidates : List Row) : String :=
  String.intercalate "\n"
    (("Ho trovato più eventi. Quale intendi rimuovere? Rispondi con <b>1-" ++
        toString (min 5 candidates.length) ++ ":</b>") :: "" ::
      numberedLines fmtDate 1 (candidates.take 5))

/-- `handle_remove` (src/main.py lines 138-176) after its first line: the
`extract_remove_target` results (which depend on the external `dateparser`)
enter as `title_guess` and `dt_ts` (the parsed datetime as epoch seconds -
`dt` is converted with `dt.astimezone(pytz.UTC).timestamp()` before use, and
a datetime object is always truthy).  `if title_guess:` is falsy for `None`
and for the empty string.  Candidate gathering: fuzzy scores first, the
`LIKE` fallback when that is empty, then the ±1800 s window around `dt`
when both are empty.  Only the multi-candidate branch touches the pending
entry; the not-found and single-candidate branches leave it as it was. -/
def handle_remove_core (score : String → String → Nat) (fmtDate : Int → String)
    (db : List EventRow) (user_id : Int) (title_guess : Option String) (dt_ts : Option Int)
    (now_ts : Int) (st : Option Pending) : StepOut :=
  let cands0 : List Row :=
    match title_guess with
    | some tg =>
      if tg == "" then []
      else
        let c1 := find_best_matches score db user_id tg now_ts
        if c1.isEmpty then find_candidates_by_title db user_id tg now_ts else c1
    | none => []
  let candidates : List Row :=
    if cands0.isEmpty then
      match dt_ts with
      | some t0 =>
        (list_all_future db user_id now_ts).filter (fun r => decide ((r.2.2 - t0).natAbs ≤ 1800))
      | none => []
    else cands0
  if candidates.isEmpty then ⟨[.reply MSG_REMOVE_NOTFOUND], st⟩
  else if 1 < candidates.length then
    ⟨[.reply (remove_choices_text fmtDate candidates)], some ⟨"remove", candidates, none⟩⟩
  else
    match candidates with
    | (event_id, title, ts) :: _ =>
      ⟨[.remove_event event_id, .reply (removed_text fmtDate title ts)], st⟩
    | [] => ⟨[], st⟩

/-- `handle_recap` (src/main.py lines 125-135): the reply texts it sends.
An empty upcoming list gets the fixed empty-agenda reply; otherwise one
message with the header, a blank line, and one line per event for the first
50 upcoming events. -/
def handle_recap (fmtDate : Int → String) (db : List EventRow) (user_id : Int)
    (now_ts : Int) : List String :=
  let events := list_all_future db user_id now_ts
  if events.isEmpty then [MSG_EMPTY_AGENDA]
  else [String.intercalate "\n" (RECAP_HEADER :: "" ::
    (events.take 50).map (fun r => fmt_event_line fmtDate r.2.1 r.2.2))]

/-! ## Concrete fixtures used by witnesses and counterexamples -/

/-- A do-nothing intent handler (the routed branches under test never reach
the intent handlers, which are arbitrary arguments there). -/
def idHandler : Option Pending → StepOut := fun st => ⟨[], st⟩

/-- Two future events of user 7 whose titles both contain "riunione". -/
def db2 : List EventRow :=
  [⟨1, 7, 7, "riunione alfa", 100⟩, ⟨2, 7, 7, "riunione beta", 200⟩]

/-- Six future events of user 7, all within ±1800 s of the instant 300. -/
def db6 : List EventRow :=
  [⟨1, 7, 7, "x", 100⟩, ⟨2, 7, 7, "y", 200⟩, ⟨3, 7, 7, "z", 300⟩,
   ⟨4, 7, 7, "w", 400⟩, ⟨5, 7, 7, "v", 500⟩, ⟨6, 7, 7, "u", 600⟩]

/-- One future event of user 1 whose title matches the wildcard query `a%z`
under `LIKE` without containing it as a substring. -/
def db9 : List EventRow := [⟨1, 1, 1, "abbbz", 100⟩]

/-- A pending remove with two candidates. -/
def pend2 : Pending := ⟨"remove", [(1, "a", 10), (2, "b", 20)], none⟩

/-! # Theorems

Helper order facts first, then one theorem (plus witness/counterexample)
per claim. -/

theorem charToNat_inj {a b : Char} (h : a.toNat = b.toNat) : a = b := by
  unfold Char.toNat at h
  apply Char.ext
  apply UInt32.toNat.inj h

theorem charsLtB_irrefl : ∀ a : List Char, charsLtB a a = false := by
  intro a
  induction a with
  | nil => rfl
  | cons c cs ih => simp [charsLtB, ih]

theorem charsLtB_trans : ∀ a b c : List Char,
    charsLtB a b = true → charsLtB b c = true → charsLtB a c = true := by
  intro a
  induction a with
  | nil =>
    intro b c hab hbc
    cases b with
    | nil => simp [charsLtB] at hab
    | cons bb bs =>
      cases c with
      | nil => simp [charsLtB] at hbc
      | cons cc cs => simp [charsLtB]
  | cons aa as ih =>
    intro b c hab hbc
    cases b with
    | nil => simp [charsLtB] at hab
    | cons bb bs =>
      cases c with
      | nil => simp [charsLtB] at hbc
      | cons cc cs =>
        simp only [charsLtB, Bool.or_eq_true, Bool.and_eq_true, decide_eq_true_eq,
          beq_iff_eq] at hab hbc ⊢
        rcases hab with h1 | ⟨he1, h2⟩
        · rcases hbc with h3 | ⟨he3, h4⟩
          · exact Or.inl (Nat.lt_trans h1 h3)
          · subst he3; exact Or.inl h1
        · subst he1
          rcases hbc with h3 | ⟨he3, h4⟩
          · exact Or.inl h3
          · subst he3; exact Or.inr ⟨rfl, ih _ _ h2 h4⟩

theorem charsLtB_trichotomy : ∀ a b : List Char,
    charsLtB a b = true ∨ a = b ∨ charsLtB b a = true := by
  intro a
  induction a with
  | nil =>
    intro b
    cases b with
    | nil => exact Or.inr (Or.inl rfl)
    | cons bb bs => exact Or.inl (by simp [charsLtB])
  | cons aa as ih =>
    intro b
    cases b with
    | nil => exact Or.inr (Or.inr (by simp [charsLtB]))
    | cons bb bs =>
      rcases Nat.lt_trichotomy aa.toNat bb.toNat with h | h | h
      · exact Or.inl (by simp [charsLtB, h])
      · have he : aa = bb := charToNat_inj h
        subst he
        rcases ih bs with h2 | h2 | h2
        · exact Or.inl (by simp [charsLtB, h2])
        · exact Or.inr (Or.inl (by rw [h2]))
        · exact Or.inr (Or.inr (by simp [charsLtB, h2]))
      · exact Or.inr (Or.inr (by simp [charsLtB, h]))

theorem scoredLt_irrefl (a : Scored) : ¬ scoredLt a a := by
  obtain ⟨s, i, t, x⟩ := a
  simp [scoredLt, charsLtB_irrefl]

theorem scoredLt_trans {a b c : Scored} (h1 : scoredLt a b) (h2 : scoredLt b c) :
    scoredLt a c := by
  obtain ⟨s1, i1, t1, x1⟩ := a
  obtain ⟨s2, i2, t2, x2⟩ := b
  obtain ⟨s3, i3, t3, x3⟩ := c
  simp only [scoredLt] at h1 h2 ⊢
  rcases h1 with h1 | ⟨rfl, h1⟩
  · rcases h2 with h2 | ⟨rfl, h2⟩
    · exact Or.inl (h1.trans h2)
    · exact Or.inl h1
  · rcases h2 with h2 | ⟨rfl, h2⟩
    · exact Or.inl h2
    · refine Or.inr ⟨rfl, ?_⟩
      rcases h1 with h1 | ⟨rfl, h1⟩
      · rcases h2 with h2 | ⟨rfl, h2⟩
        · exact Or.inl (h1.trans h2)
        · exact Or.inl h1
      · rcases h2 with h2 | ⟨rfl, h2⟩
        · exact Or.inl h2
        · refine Or.inr ⟨rfl, ?_⟩
          rcases h1 with h1 | ⟨he1, h1⟩
          · rcases h2 with h2 | ⟨he2, h2⟩
            · exact Or.inl (charsLtB_trans _ _ _ h1 h2)
            · subst he2; exact Or.inl h1
          · subst he1
            rcases h2 with h2 | ⟨he2, h2⟩
            · exact Or.inl h2
            · subst he2; exact Or.inr ⟨rfl, h1.trans h2⟩

theorem scoredLt_trichotomy (a b : Scored) : scoredLt a b ∨ a = b ∨ scoredLt b a := by
  obtain ⟨s1, i1, t1, x1⟩ := a
  obtain ⟨s2, i2, t2, x2⟩ := b
  simp only [scoredLt, Prod.mk.injEq]
  rcases Nat.lt_trichotomy s1 s2 with h | rfl | h
  · exact Or.inl (Or.inl h)
  · rcases Nat.lt_trichotomy i1 i2 with h | rfl | h
    · exact Or.inl (Or.inr ⟨rfl, Or.inl h⟩)
    · rcases charsLtB_trichotomy t1.data t2.data with h | h | h
      · exact Or.inl (Or.inr ⟨rfl, Or.inr ⟨rfl, Or.inl h⟩⟩)
      · have he : t1 = t2 := by
          cases t1; cases t2; exact congrArg String.mk h
        subst he
        rcases Int.lt_trichotomy x1 x2 with h | rfl | h
        · exact Or.inl (Or.inr ⟨rfl, Or.inr ⟨rfl, Or.inr ⟨rfl, h⟩⟩⟩)
        · exact Or.inr (Or.inl ⟨rfl, rfl, rfl, rfl⟩)
        · exact Or.inr (Or.inr (Or.inr ⟨rfl, Or.inr ⟨rfl, Or.inr ⟨rfl, h⟩⟩⟩))
      · exact Or.inr (Or.inr (Or.inr ⟨rfl, Or.inr ⟨rfl, Or.inl h⟩⟩))
    · exact Or.inr (Or.inr (Or.inr ⟨rfl, Or.inl h⟩))
  · exact Or.inr (Or.inr (Or.inl h))

theorem scoredDesc_trans {a b c : Scored} (h1 : scoredDesc a b) (h2 : scoredDesc b c) :
    scoredDesc a c := by
  intro hac
  rcases scoredLt_trichotomy a b with h | rfl | h
  · exact h1 h
  · exact h2 hac
  · exact h2 (scoredLt_trans h hac)

theorem scoredDesc_total (a b : Scored) : scoredDesc a b ∨ scoredDesc b a := by
  by_cases h : scoredLt a b
  · exact Or.inr (fun hba => scoredLt_irrefl a (scoredLt_trans h hba))
  · exact Or.inl h

theorem rowOrd_trans {a b c : EventRow} (h1 : rowOrd a b) (h2 : rowOrd b c) : rowOrd a c := by
  unfold rowOrd at h1 h2 ⊢
  omega

theorem rowOrd_total (a b : EventRow) : rowOrd a b ∨ rowOrd b a := by
  unfold rowOrd
  omega

theorem scoreDescOnly_trans {a b c : Scored} (h1 : scoreDescOnly a b) (h2 : scoreDescOnly b c) :
    scoreDescOnly a c := by
  unfold scoreDescOnly at h1 h2 ⊢
  omega

theorem scoreDescOnly_total (a b : Scored) : scoreDescOnly a b ∨ scoreDescOnly b a := by
  unfold scoreDescOnly
  omega

/-! ## Claim C1: intent classifier precedence -/

/-- Claim C1 (counterexample): the claimed precedence (move, remove, add,
recap, help, with "unknown" only when no keyword set matches) disagrees with
`detect_intent`.  "aiuto" matches the help keyword set yet classifies as
"unknown"; "metti e sposta" matches both the add and the move keyword sets
and classifies as "add" (the add check runs first), where the claimed order
would give "move". -/
theorem detect_intent_claim_counterexample :
    detect_intent "aiuto" = "unknown" ∧
    helpTrig (pyStrip (pyLower "aiuto")) = true ∧
    detect_intent_claim "aiuto" = "help" ∧
    moveTrig (pyStrip (pyLower "metti e sposta")) = true ∧
    detect_intent "metti e sposta" = "add" ∧
    detect_intent_claim "metti e sposta" = "move" := by decide

/-- Claim C1 (amended): `detect_intent` returns exactly one intent from the
closed set {add, move, remove, recap, unknown} - "help" is never returned -
determined by case-insensitive containment of the keyword tables in the fixed
precedence order add (regex or keywords) first, then move, then remove, then
recap (keywords or the exact messages "agenda"/"agenda?"), and it returns
"unknown" exactly when none of those four keyword sets matches. -/
theorem detect_intent_closed_set_precedence (text : String) :
    (detect_intent text = "add" ∨ detect_intent text = "move" ∨ detect_intent text = "remove" ∨
      detect_intent text = "recap" ∨ detect_intent text = "unknown") ∧
    detect_intent text ≠ "help" ∧
    (detect_intent text = "unknown" ↔
      addTrig (pyStrip (pyLower text)) = false ∧ moveTrig (pyStrip (pyLower text)) = false ∧
      removeTrig (pyStrip (pyLower text)) = false ∧ recapTrig (pyStrip (pyLower text)) = false) ∧
    (addTrig (pyStrip (pyLower text)) = true → detect_intent text = "add") ∧
    (addTrig (pyStrip (pyLower text)) = false → moveTrig (pyStrip (pyLower text)) = true →
      detect_intent text = "move") ∧
    (addTrig (pyStrip (pyLower text)) = false → moveTrig (pyStrip (pyLower text)) = false →
      removeTrig (pyStrip (pyLower text)) = true → detect_intent text = "remove") ∧
    (addTrig (pyStrip (pyLower text)) = false → moveTrig (pyStrip (pyLower text)) = false →
      removeTrig (pyStrip (pyLower text)) = false → recapTrig (pyStrip (pyLower text)) = true →
      detect_intent text = "recap") := by
  cases ha : addTrig (pyStrip (pyLower text)) <;>
    cases hm : moveTrig (pyStrip (pyLower text)) <;>
    cases hr : removeTrig (pyStrip (pyLower text)) <;>
    cases hc : recapTrig (pyStrip (pyLower text)) <;>
    simp [detect_intent, ha, hm, hr, hc]

/-- Witness for C1's amended theorem at concrete inputs. -/
theorem detect_intent_closed_set_precedence_witness :
    detect_intent "metti domani caffè" = "add" ∧ detect_intent "sposta il caffè" = "move" :=
  ⟨(detect_intent_closed_set_precedence "metti domani caffè").2.2.2.1 (by decide),
   (detect_intent_closed_set_precedence "sposta il caffè").2.2.2.2.1 (by decide) (by decide)⟩

/-! ## Claim C3: reminder scheduling contract -/

/-- Claim C3 (confirmed): `schedule_event_reminder` computes the fire instant
as the event instant minus 10 minutes (600 s); when that instant is not
strictly after the current instant the call registers nothing (and raises
nothing - the model is total), otherwise it registers exactly one one-shot
job at the fire instant with a 60-second misfire grace period. -/
theorem schedule_event_reminder_contract (fmtRome : Int → String) (now_ts chat_id : Int)
    (title : String) (event_ts : Int) :
    (schedule_event_reminder fmtRome now_ts chat_id title event_ts = none ↔
      event_ts - 600 ≤ now_ts) ∧
    (∀ j : Job, schedule_event_reminder fmtRome now_ts chat_id title event_ts = some j →
      j.run_ts = event_ts - 600 ∧ j.misfire_grace_time = 60 ∧ j.chat_id = chat_id ∧
      j.text = reminder_text fmtRome title event_ts) := by
  by_cases h : event_ts - 600 ≤ now_ts
  · constructor
    · simp [schedule_event_reminder, h]
    · intro j hj
      simp [schedule_event_reminder, h] at hj
  · constructor
    · simp [schedule_event_reminder, h]
    · intro j hj
      simp only [schedule_event_reminder, if_neg h, Option.some.injEq] at hj
      subst hj
      exact ⟨rfl, rfl, rfl, rfl⟩

/-- Witness for C3 at concrete inputs: a future event gets its job 600 s
before the event with grace 60; a past-due lead instant registers nothing. -/
theorem schedule_event_reminder_contract_witness :
    ((⟨5, reminder_text (fun _ => "t") "x" 700, 100, 60, true, 3⟩ : Job).run_ts = 700 - 600 ∧
      (⟨5, reminder_text (fun _ => "t") "x" 700, 100, 60, true, 3⟩ : Job).misfire_grace_time = 60 ∧
      (⟨5, reminder_text (fun _ => "t") "x" 700, 100, 60, true, 3⟩ : Job).chat_id = 5 ∧
      (⟨5, reminder_text (fun _ => "t") "x" 700, 100, 60, true, 3⟩ : Job).text =
        reminder_text (fun _ => "t") "x" 700) ∧
    (schedule_event_reminder (fun _ => "t") 700 5 "x" 700 = none ↔ (700 : Int) - 600 ≤ 700) :=
  ⟨(schedule_event_reminder_contract (fun _ => "t") 0 5 "x" 700).2 _ (by decide),
   (schedule_event_reminder_contract (fun _ => "t") 700 5 "x" 700).1⟩

/-! ## Claim C7: `extract_datetime` is not a pure function of (text, now) -/

/-- Claim C7 (code bug): with the same text and the same `now_dt`,
`extract_datetime` still differs across two ambient clock readings (the
external date search is invoked without a reference base, so it resolves
"domani" against the ambient current clock - `relSearchModel` models that
collaborator at ambient day 0 vs ambient day 1); conversely, changing
`now_dt` with everything else fixed never changes the result, because the
source ignores that parameter. -/
theorem extract_datetime_ambient_dependence :
    (extract_datetime (relSearchModel 0) "domani alle 15" ⟨0, 0, 0, some 60⟩ =
      extract_datetime (relSearchModel 0) "domani alle 15" ⟨99999, 30, 7, some 60⟩) ∧
    extract_datetime (relSearchModel 0) "domani alle 15" ⟨0, 0, 0, some 60⟩ ≠
      extract_datetime (relSearchModel 1440) "domani alle 15" ⟨0, 0, 0, some 60⟩ := by decide

/-! ## Claim C6: the default-time policy -/

/-- Claim C6 (counterexample): the claim counts a bare hour (`H` without
minutes) as an explicit clock-time pattern and asserts the parsed time is
then kept.  The date-only text "il 24 dicembre" contains such a bare-digit
match ("24"), its recognized date parses to midnight, and yet
`extract_datetime` moves the time to 09:00: the source regex requires `:MM`,
so a bare hour does not count. -/
theorem extract_datetime_bare_hour_counterexample :
    has_time_claim "il 24 dicembre" = true ∧
    has_time_re "il 24 dicembre" = false ∧
    dicembreEnv "il 24 dicembre" = [("24 dicembre", ⟨20781 * 1440, 0, 0, none⟩)] ∧
    (normRome ⟨20781 * 1440, 0, 0, none⟩).hour = 0 ∧
    extract_datetime dicembreEnv "il 24 dicembre" ⟨0, 0, 0, some 60⟩ =
      some ⟨20781 * 1440 + 540, 0, 0, some 60⟩ ∧
    extract_datetime dicembreEnv "il 24 dicembre" ⟨0, 0, 0, some 60⟩ ≠
      some (normRome ⟨20781 * 1440, 0, 0, none⟩) := by decide

theorem setNineAM_hour (d : PyDT) : (setNineAM d).hour = 9 := by
  show (d.tmin - d.tmin % 1440 + 540) % 1440 / 60 = 9
  have hd := Int.emod_def d.tmin 1440
  have h1 : d.tmin - d.tmin % 1440 + 540 = 540 + 1440 * (d.tmin / 1440) := by omega
  rw [h1, Int.add_mul_emod_self_left]
  decide

theorem setNineAM_minute (d : PyDT) : (setNineAM d).minute = 0 := by
  show (d.tmin - d.tmin % 1440 + 540) % 60 = 0
  have hd := Int.emod_def d.tmin 1440
  have h1 : d.tmin - d.tmin % 1440 + 540 = 540 + 60 * (24 * (d.tmin / 1440)) := by omega
  rw [h1, Int.add_mul_emod_self_left]
  decide

/-- Claim C6 (amended): write `H:MM` for the source's clock-time pattern
(`\b\d{1,2}:\d{2}\b` - a bare hour does not count).  When the search finds a
date: if the normalised result is at midnight and the text has no `H:MM`
pattern, the time becomes 09:00 local; otherwise the parsed time is kept
unchanged. -/
theorem extract_datetime_default_time_policy (search_dates : String → List (String × PyDT))
    (text : String) (now_dt : PyDT) (s : String) (dt0 : PyDT) (rest : List (String × PyDT))
    (h : search_dates text = (s, dt0) :: rest) :
    (has_time_re text = true ∨ ¬(normRome dt0).hour = 0 ∨ ¬(normRome dt0).minute = 0 →
      extract_datetime search_dates text now_dt = some (normRome dt0)) ∧
    ((normRome dt0).hour = 0 → (normRome dt0).minute = 0 → has_time_re text = false →
      extract_datetime search_dates text now_dt = some (setNineAM (normRome dt0)) ∧
      (setNineAM (normRome dt0)).hour = 9 ∧ (setNineAM (normRome dt0)).minute = 0) := by
  constructor
  · intro hkeep
    have hg : (((normRome dt0).hour == 0) && ((normRome dt0).minute == 0) &&
        !has_time_re text) = false := by
      rcases hkeep with ht | hh | hm
      · simp [ht]
      · simp [beq_iff_eq, hh]
      · simp [beq_iff_eq, hm]
    simp [extract_datetime, h, hg]
  · intro h0 hm ht
    have hg : (((normRome dt0).hour == 0) && ((normRome dt0).minute == 0) &&
        !has_time_re text) = true := by
      simp [beq_iff_eq, h0, hm, ht]
    refine ⟨?_, setNineAM_hour _, setNineAM_minute _⟩
    simp [extract_datetime, h, hg]

/-- Witness for C6's amended theorem: both branches exercised concretely
(date-only text forced to 09:00; a text with `H:MM` keeps its time). -/
theorem extract_datetime_default_time_policy_witness :
    extract_datetime dicembreEnv "il 24 dicembre" ⟨0, 0, 0, some 60⟩ =
      some (setNineAM (normRome ⟨20781 * 1440, 0, 0, none⟩)) ∧
    (setNineAM (normRome ⟨20781 * 1440, 0, 0, none⟩)).hour = 9 :=
  ⟨((extract_datetime_default_time_policy dicembreEnv "il 24 dicembre" ⟨0, 0, 0, some 60⟩
      "24 dicembre" ⟨20781 * 1440, 0, 0, none⟩ [] (by decide)).2 (by decide) (by decide)
      (by decide)).1,
   ((extract_datetime_default_time_policy dicembreEnv "il 24 dicembre" ⟨0, 0, 0, some 60⟩
      "24 dicembre" ⟨20781 * 1440, 0, 0, none⟩ [] (by decide)).2 (by decide) (by decide)
      (by decide)).2.1⟩

/-! ## Claim C2: fuzzy candidate selection and ordering -/

/-- Claim C2 (counterexample): two future events whose titles both contain
the query score 100 each; the claimed tie-break (chronological order) would
list the earlier event (id 1, start 100) first, but `scored.sort(reverse=True)`
sorts the whole `(score, eid, title, start_ts)` tuples, so ties in the score
are broken by descending event id: the later event (id 2, start 200) comes
first. -/
theorem find_best_matches_tie_counterexample :
    partialScoreModel (pyStrip (pyLower "riunione")) (pyLower "riunione alfa") = 100 ∧
    partialScoreModel (pyStrip (pyLower "riunione")) (pyLower "riunione beta") = 100 ∧
    find_best_matches partialScoreModel db2 7 "riunione" 0 =
      [(2, "riunione beta", 200), (1, "riunione alfa", 100)] ∧
    find_best_matches_claim partialScoreModel db2 7 "riunione" 0 =
      [(1, "riunione alfa", 100), (2, "riunione beta", 200)] ∧
    find_best_matches partialScoreModel db2 7 "riunione" 0 ≠
      find_best_matches_claim partialScoreModel db2 7 "riunione" 0 := by decide

/-- Claim C2 (amended): when at most five future events clear the threshold,
`find_best_matches` returns exactly the scored-≥-60 events (no truncation),
sorted under the reversed Python tuple order - descending by score, ties
broken by descending `(eid, title, start_ts)` - and the scored list holds
exactly the future events whose lowered title scores ≥ 60 against the
lowered, stripped query. -/
theorem find_best_matches_amended_spec (score : String → String → Nat) (db : List EventRow)
    (user_id : Int) (query : String) (now_ts : Int)
    (h5 : (scoredOf score db user_id query now_ts).length ≤ 5) :
    find_best_matches score db user_id query now_ts =
      (List.insertionSort scoredDesc (scoredOf score db user_id query now_ts)).map stripScore ∧
    (find_best_matches score db user_id query now_ts).Perm
      ((scoredOf score db user_id query now_ts).map stripScore) ∧
    List.Pairwise scoredDesc
      (List.insertionSort scoredDesc (scoredOf score db user_id query now_ts)) ∧
    (∀ x : Scored, x ∈ scoredOf score db user_id query now_ts ↔
      ((x.2.1, x.2.2.1, x.2.2.2) ∈ list_all_future db user_id now_ts ∧
        x.1 = score (pyStrip (pyLower query)) (pyLower x.2.2.1) ∧ 60 ≤ x.1)) := by
  have hlen : (List.insertionSort scoredDesc (scoredOf score db user_id query now_ts)).length ≤ 5 := by
    rw [List.length_insertionSort]
    exact h5
  have heq : find_best_matches score db user_id query now_ts =
      (List.insertionSort scoredDesc (scoredOf score db user_id query now_ts)).map stripScore := by
    unfold find_best_matches
    rw [List.take_of_length_le hlen]
  refine ⟨heq, ?_, ?_, ?_⟩
  · rw [heq]
    exact (List.perm_insertionSort scoredDesc _).map stripScore
  · haveI : IsTrans Scored scoredDesc := ⟨fun _ _ _ => scoredDesc_trans⟩
    haveI : IsTotal Scored scoredDesc := ⟨scoredDesc_total⟩
    exact List.sorted_insertionSort scoredDesc _
  · intro x
    obtain ⟨s, i, t, ts⟩ := x
    simp only [scoredOf, List.mem_filterMap]
    constructor
    · rintro ⟨⟨ri, rt, rts⟩, hr, hf⟩
      dsimp only at hf
      by_cases h60 : 60 ≤ score (pyStrip (pyLower query)) (pyLower rt)
      · rw [if_pos h60] at hf
        simp only [Option.some.injEq, Prod.mk.injEq] at hf
        obtain ⟨hs, hi, ht, hts⟩ := hf
        subst hs; subst hi; subst ht; subst hts
        exact ⟨hr, rfl, h60⟩
      · rw [if_neg h60] at hf
        exact absurd hf (by simp)
    · rintro ⟨hmem, hs, h60⟩
      subst hs
      refine ⟨(i, t, ts), hmem, ?_⟩
      dsimp only
      rw [if_pos h60]

/-- Witness for C2's amended theorem at the two-event fixture. -/
theorem find_best_matches_amended_spec_witness :
    find_best_matches partialScoreModel db2 7 "riunione" 0 =
      (List.insertionSort scoredDesc (scoredOf partialScoreModel db2 7 "riunione" 0)).map
        stripScore :=
  (find_best_matches_amended_spec partialScoreModel db2 7 "riunione" 0 (by decide)).1

/-! ## Claims C4/C5: resolving a pending disambiguation -/

/-- `handle_numeric_choice` on an already-stripped all-digit message, with
the guard and candidate lookup exposed. -/
theorem handle_numeric_choice_digit (fmtDate : Int → String) (chat_id : Int) (msg : String)
    (p : Pending) (hstrip : pyStrip msg = msg) (hdig : pyIsDigit msg = true) :
    handle_numeric_choice fmtDate chat_id msg (some p) =
      (if digitsToNat msg.data < 1 ∨ min 5 p.candidates.length < digitsToNat msg.data then
        ⟨[.reply MSG_INVALID_CHOICE], some p⟩
      else
        match p.candidates.get? (digitsToNat msg.data - 1) with
        | none => ⟨[], some p⟩
        | some (event_id, title, ts) =>
          apply_pending_choice fmtDate chat_id p event_id title ts) := by
  unfold handle_numeric_choice
  rw [hstrip]
  dsimp only
  rw [hdig]
  rfl

/-- Routing a single digit `1`-`5` always reaches `handle_numeric_choice`. -/
theorem route_message_digit (fmtDate : Int → String)
    (hAdd hRecap hRemove hMove hHelp : Option Pending → StepOut) (chat_id : Int)
    (msg : String) (st : Option Pending) (h : is_choice_message msg = true) :
    route_message fmtDate hAdd hRecap hRemove hMove hHelp chat_id msg st =
      handle_numeric_choice fmtDate chat_id msg st := by
  unfold route_message
  rw [h]
  rfl

/-- Claim C4 (counterexample): with a pending remove of two candidates, the
digit-only reply "9" does not produce the "invalid choice" response: the
`^[1-5]$` gate routes it to the general intent router, which classifies it
as "unknown" and sends the generic clarification prompt (the pending entry
does survive). -/
theorem numeric_choice_routing_counterexample :
    is_choice_message "9" = false ∧
    pyIsDigit "9" = true ∧
    detect_intent "9" = "unknown" ∧
    route_message (fun _ => "d") idHandler idHandler idHandler idHandler idHandler 9 "9"
        (some pend2) = ⟨[.reply MSG_FALLBACK], some pend2⟩ ∧
    MSG_FALLBACK ≠ MSG_INVALID_CHOICE := by decide

/-- Claim C4 (amended): a digit-only message in the routed range `1`-`5`
whose value exceeds `min(5, k)` produces exactly the "invalid choice" reply
and leaves the stored pending state - candidate list and action kind -
unchanged, so a later valid digit still resolves; digits outside `1`-`5`
(such as "9") never reach the choice handler at all and fall through to the
generic router reply, also leaving the pending state unchanged. -/
theorem numeric_choice_in_range_invalid_preserves (fmtDate : Int → String)
    (hAdd hRecap hRemove hMove hHelp : Option Pending → StepOut) (chat_id : Int)
    (p : Pending) (msg : String)
    (hmsg : msg = "1" ∨ msg = "2" ∨ msg = "3" ∨ msg = "4" ∨ msg = "5")
    (hout : min 5 p.candidates.length < digitsToNat msg.data) :
    route_message fmtDate hAdd hRecap hRemove hMove hHelp chat_id msg (some p) =
      ⟨[.reply MSG_INVALID_CHOICE], some p⟩ := by
  rcases hmsg with rfl | rfl | rfl | rfl | rfl <;>
  · rw [route_message_digit _ _ _ _ _ _ _ _ _ (by decide),
      handle_numeric_choice_digit _ _ _ _ (by decide) (by decide)]
    rw [if_pos (Or.inr hout)]

/-- Witness for C4's amended theorem: "3" with two candidates pending. -/
theorem numeric_choice_in_range_invalid_preserves_witness :
    route_message (fun _ => "d") idHandler idHandler idHandler idHandler idHandler 9 "3"
        (some pend2) = ⟨[.reply MSG_INVALID_CHOICE], some pend2⟩ :=
  numeric_choice_in_range_invalid_preserves (fun _ => "d") idHandler idHandler idHandler
    idHandler idHandler 9 pend2 "3" (by simp) (by decide)

theorem apply_pending_choice_clears (fmtDate : Int → String) (chat_id : Int) (p : Pending)
    (e : Nat) (t : String) (ts : Int) :
    (apply_pending_choice fmtDate chat_id p e t ts).pending = none := by
  unfold apply_pending_choice
  repeat' split
  all_goals rfl

theorem apply_pending_choice_remove (fmtDate : Int → String) (chat_id : Int) (p : Pending)
    (e : Nat) (t : String) (ts : Int) (h : p.typ = "remove") :
    apply_pending_choice fmtDate chat_id p e t ts =
      ⟨[.remove_event e, .reply (removed_text fmtDate t ts)], none⟩ := by
  unfold apply_pending_choice
  rw [if_pos (by simp [h])]

theorem apply_pending_choice_move_none (fmtDate : Int → String) (chat_id : Int) (p : Pending)
    (e : Nat) (t : String) (ts : Int) (h : p.typ = "move") (hn : p.new_ts = none) :
    apply_pending_choice fmtDate chat_id p e t ts = ⟨[.reply MSG_MOVE_RETRY], none⟩ := by
  unfold apply_pending_choice
  rw [if_neg (by simp [h]), if_pos (by simp [h]), hn]

theorem apply_pending_choice_move_some (fmtDate : Int → String) (chat_id : Int) (p : Pending)
    (e : Nat) (t : String) (ts : Int) (nts : Int) (h : p.typ = "move")
    (hn : p.new_ts = some nts) (hz : nts ≠ 0) :
    apply_pending_choice fmtDate chat_id p e t ts =
      ⟨[.update_event_time e nts, .schedule_reminder chat_id t nts,
        .reply (moved_text fmtDate t ts nts)], none⟩ := by
  unfold apply_pending_choice
  rw [if_neg (by simp [h]), if_pos (by simp [h]), hn]
  dsimp only
  rw [if_neg (by simp [hz])]

/-- Claim C5 (confirmed): a digit-only message within `[1, min(5, k)]`
applies the stored action to the candidate at that position - remove
deletes it; move updates it to the stored target and reschedules, or, when
the stored target timestamp is absent, only reports the retry prompt - and
the pending state is cleared unconditionally afterward, in the failure case
included. -/
theorem numeric_choice_valid_applies_then_clears (fmtDate : Int → String)
    (hAdd hRecap hRemove hMove hHelp : Option Pending → StepOut) (chat_id : Int)
    (p : Pending) (msg : String) (event_id : Nat) (title : String) (ts : Int)
    (hmsg : msg = "1" ∨ msg = "2" ∨ msg = "3" ∨ msg = "4" ∨ msg = "5")
    (hin : digitsToNat msg.data ≤ min 5 p.candidates.length)
    (hget : p.candidates.get? (digitsToNat msg.data - 1) = some (event_id, title, ts)) :
    (route_message fmtDate hAdd hRecap hRemove hMove hHelp chat_id msg (some p)).pending = none ∧
    (p.typ = "remove" →
      route_message fmtDate hAdd hRecap hRemove hMove hHelp chat_id msg (some p) =
        ⟨[.remove_event event_id, .reply (removed_text fmtDate title ts)], none⟩) ∧
    (p.typ = "move" → p.new_ts = none →
      route_message fmtDate hAdd hRecap hRemove hMove hHelp chat_id msg (some p) =
        ⟨[.reply MSG_MOVE_RETRY], none⟩) ∧
    (∀ nts : Int, p.typ = "move" → p.new_ts = some nts → nts ≠ 0 →
      route_message fmtDate hAdd hRecap hRemove hMove hHelp chat_id msg (some p) =
        ⟨[.update_event_time event_id nts, .schedule_reminder chat_id title nts,
          .reply (moved_text fmtDate title ts nts)], none⟩) := by
  have hno : ¬(digitsToNat msg.data < 1 ∨ min 5 p.candidates.length < digitsToNat msg.data) := by
    rintro (h | h)
    · rcases hmsg with rfl | rfl | rfl | rfl | rfl <;> exact absurd h (by decide)
    · exact absurd h (Nat.not_lt.mpr hin)
  have hkey : route_message fmtDate hAdd hRecap hRemove hMove hHelp chat_id msg (some p) =
      apply_pending_choice fmtDate chat_id p event_id title ts := by
    rcases hmsg with rfl | rfl | rfl | rfl | rfl <;>
    · rw [route_message_digit _ _ _ _ _ _ _ _ _ (by decide),
        handle_numeric_choice_digit _ _ _ _ (by decide) (by decide), if_neg hno, hget]
  refine ⟨?_, ?_, ?_, ?_⟩
  · rw [hkey]
    exact apply_pending_choice_clears _ _ _ _ _ _
  · intro h
    rw [hkey]
    exact apply_pending_choice_remove _ _ _ _ _ _ h
  · intro h hn
    rw [hkey]
    exact apply_pending_choice_move_none _ _ _ _ _ _ h hn
  · intro nts h hn hz
    rw [hkey]
    exact apply_pending_choice_move_some _ _ _ _ _ _ _ h hn hz

/-- Witness for C5: "2" on a two-candidate pending remove deletes event 2
and clears the pending state. -/
theorem numeric_choice_valid_applies_then_clears_witness :
    route_message (fun _ => "d") idHandler idHandler idHandler idHandler idHandler 9 "2"
        (some pend2) =
      ⟨[.remove_event 2, .reply (removed_text (fun _ => "d") "b" 20)], none⟩ :=
  (numeric_choice_valid_applies_then_clears (fun _ => "d") idHandler idHandler idHandler
    idHandler idHandler 9 pend2 "2" 2 "b" 20 (by simp) (by decide) (by decide)).2.1 rfl

/-! ## Claim C8: candidate lists and the cap of 5 -/

/-- Claim C8 (counterexample): a remove request with no usable title but a
parsed timestamp gathers candidates through the ±30-minute window, which is
not capped: with six stored future events near the target, the pending
disambiguation stores all six candidates (only the displayed list and the
accepted digit range are capped at 5). -/
theorem pending_candidates_uncapped_counterexample :
    (handle_remove_core partialScoreModel (fun _ => "d") db6 7 none (some 300) 0 none).pending =
      some ⟨"remove", [(1, "x", 100), (2, "y", 200), (3, "z", 300), (4, "w", 400), (5, "v", 500),
        (6, "u", 600)], none⟩ ∧
    Option.map (fun p : Pending => p.candidates.length)
      (handle_remove_core partialScoreModel (fun _ => "d") db6 7 none (some 300) 0 none).pending =
      some 6 := by decide

/-- Claim C8 (amended): the fuzzy-score path is capped at five candidates
(`scored[:limit]` with the default `limit=5`); the substring fallback, the
time-window fallback and the stored pending candidate list are not capped. -/
theorem find_best_matches_capped_at_five (score : String → String → Nat) (db : List EventRow)
    (user_id : Int) (query : String) (now_ts : Int) :
    (find_best_matches score db user_id query now_ts).length ≤ 5 := by
  unfold find_best_matches
  rw [List.length_map, List.length_take]
  omega

/-! ## Claim C10: recap lists at most the first 50 upcoming events -/

/-- Claim C10 (confirmed): a nonempty recap reply consists of the header, a
blank line, and exactly the first 50 (or fewer) of the user's future events;
the listed events are an initial prefix of the chronologically ascending
upcoming list, so events beyond the 50th are silently omitted. -/
theorem handle_recap_caps_at_fifty (fmtDate : Int → String) (db : List EventRow)
    (user_id : Int) (now_ts : Int) (hne : list_all_future db user_id now_ts ≠ []) :
    handle_recap fmtDate db user_id now_ts =
      [String.intercalate "\n" (RECAP_HEADER :: "" ::
        ((list_all_future db user_id now_ts).take 50).map
          (fun r => fmt_event_line fmtDate r.2.1 r.2.2))] ∧
    ((list_all_future db user_id now_ts).take 50).length ≤ 50 ∧
    (list_all_future db user_id now_ts).take 50 <+: list_all_future db user_id now_ts ∧
    List.Pairwise (fun a b : Row => a.2.2 ≤ b.2.2) (list_all_future db user_id now_ts) := by
  refine ⟨?_, ?_, List.take_prefix _ _, ?_⟩
  · unfold handle_recap
    rw [if_neg (by simpa [List.isEmpty_iff] using hne)]
  · rw [List.length_take]
    omega
  · unfold list_all_future
    haveI : IsTrans EventRow rowOrd := ⟨fun _ _ _ => rowOrd_trans⟩
    haveI : IsTotal EventRow rowOrd := ⟨rowOrd_total⟩
    refine List.Pairwise.map _ ?_ (List.sorted_insertionSort rowOrd _)
    intro a b hab
    rcases hab with h | ⟨h, _⟩
    · exact le_of_lt h
    · exact le_of_eq h

/-- Witness for C10 on a concrete nonempty agenda. -/
theorem handle_recap_caps_at_fifty_witness :
    handle_recap (fun _ => "d") db2 7 0 =
      [String.intercalate "\n" (RECAP_HEADER :: "" ::
        ((list_all_future db2 7 0).take 50).map
          (fun r => fmt_event_line (fun _ => "d") r.2.1 r.2.2))] :=
  (handle_recap_caps_at_fifty (fun _ => "d") db2 7 0 (by decide)).1

/-! ## Claim C9: the substring-containment fallback -/

theorem likeMatch_nil (s : List Char) : likeMatch [] s = s.isEmpty := by
  simp [likeMatch]

theorem likeMatch_cons_plain (c : Char) (ps s : List Char) (h1 : c ≠ '%') (h2 : c ≠ '_') :
    likeMatch (c :: ps) s =
      (match s with
       | [] => false
       | d :: t => likeFold c == likeFold d && likeMatch ps t) := by
  cases s <;> simp [likeMatch, h1, h2]

theorem tails_any_isEmpty (t : List Char) : (t.tails.any fun s => s.isEmpty) = true := by
  induction t with
  | nil => rfl
  | cons c t ih => simp [List.tails, ih]

theorem likeMatch_lit_percent : ∀ lit : List Char, (∀ c ∈ lit, c ≠ '%' ∧ c ≠ '_') →
    ∀ t : List Char,
      likeMatch (lit ++ ['%']) t = listPrefixOf (lit.map likeFold) (t.map likeFold) := by
  intro lit
  induction lit with
  | nil =>
    intro _ t
    simp only [List.nil_append, List.map_nil]
    have h1 : likeMatch ['%'] t = (t.tails.any fun s => likeMatch [] s) := by
      simp [likeMatch]
    have h2 : (fun s : List Char => likeMatch [] s) = fun s : List Char => s.isEmpty :=
      funext likeMatch_nil
    rw [h1, h2, tails_any_isEmpty]
    rfl
  | cons c lit ih =>
    intro hw t
    have hc := hw c (List.mem_cons_self c lit)
    have hw2 : ∀ x ∈ lit, x ≠ '%' ∧ x ≠ '_' := fun x hx => hw x (List.mem_cons_of_mem c hx)
    rw [List.cons_append, likeMatch_cons_plain c (lit ++ ['%']) t hc.1 hc.2]
    cases t with
    | nil => rfl
    | cons d t2 =>
      simp only [List.map_cons, listPrefixOf]
      rw [ih hw2 t2]

theorem listInfixOf_eq_tails_any (n : List Char) :
    ∀ h : List Char, listInfixOf n h = h.tails.any (listPrefixOf n) := by
  intro h
  induction h with
  | nil =>
    cases n with
    | nil => rfl
    | cons x xs => rfl
  | cons c t ih =>
    cases n with
    | nil => rfl
    | cons x xs =>
      show (listPrefixOf (x :: xs) (c :: t) || listInfixOf (x :: xs) t) = _
      rw [ih]
      rfl

theorem likeMatch_percent_sandwich (lit : List Char) (hw : ∀ c ∈ lit, c ≠ '%' ∧ c ≠ '_')
    (s : List Char) :
    likeMatch ('%' :: (lit ++ ['%'])) s = listInfixOf (lit.map likeFold) (s.map likeFold) := by
  have h1 : likeMatch ('%' :: (lit ++ ['%'])) s = s.tails.any (likeMatch (lit ++ ['%'])) := by
    simp [likeMatch]
  have h2 : likeMatch (lit ++ ['%']) =
      fun t => listPrefixOf (lit.map likeFold) (t.map likeFold) :=
    funext (likeMatch_lit_percent lit hw)
  rw [h1, h2, listInfixOf_eq_tails_any, List.map_tails, List.any_map]
  rfl

/-- Claim C9 (amended): for a query whose trimmed text holds no `LIKE`
wildcard (`%` or `_`), the fallback returns exactly the owner's future
events whose title contains the trimmed query as an ASCII-case-insensitive
substring (SQLite `LIKE` folds only ASCII letters, so non-ASCII characters -
accented Italian letters included - match case-sensitively), ordered
ascending by start instant. -/
theorem find_candidates_by_title_plain_query (db : List EventRow) (user_id : Int)
    (tq : String) (now_ts : Int)
    (hw : ∀ c ∈ (pyStrip tq).data, c ≠ '%' ∧ c ≠ '_') :
    find_candidates_by_title db user_id tq now_ts =
      (List.insertionSort rowOrd
        (db.filter (fun e => decide (e.user_id = user_id) && decide (now_ts ≤ e.start_ts) &&
          asciiCiContains e.title tq))).map (fun e => (e.id, e.title, e.start_ts)) ∧
    List.Pairwise (fun a b : Row => a.2.2 ≤ b.2.2)
      (find_candidates_by_title db user_id tq now_ts) := by
  have hfil : db.filter (fun e => decide (e.user_id = user_id) && decide (now_ts ≤ e.start_ts) &&
        likeMatch ('%' :: (pyStrip tq).data ++ ['%']) e.title.data) =
      db.filter (fun e => decide (e.user_id = user_id) && decide (now_ts ≤ e.start_ts) &&
        asciiCiContains e.title tq) := by
    apply List.filter_congr
    intro e _
    rw [show ('%' :: (pyStrip tq).data ++ ['%'] : List Char) =
      '%' :: ((pyStrip tq).data ++ ['%']) from rfl]
    rw [likeMatch_percent_sandwich _ hw]
    rfl
  constructor
  · unfold find_candidates_by_title
    dsimp only
    rw [hfil]
  · unfold find_candidates_by_title
    dsimp only
    haveI : IsTrans EventRow rowOrd := ⟨fun _ _ _ => rowOrd_trans⟩
    haveI : IsTotal EventRow rowOrd := ⟨rowOrd_total⟩
    refine List.Pairwise.map _ ?_ (List.sorted_insertionSort rowOrd _)
    intro a b hab
    rcases hab with h | ⟨h, _⟩
    · exact le_of_lt h
    · exact le_of_eq h

/-- Witness for C9's amended theorem on a plain (wildcard-free) query. -/
theorem find_candidates_by_title_plain_query_witness :
    find_candidates_by_title db2 7 "riunione beta" 0 =
      (List.insertionSort rowOrd
        (db2.filter (fun e => decide (e.user_id = 7) && decide ((0 : Int) ≤ e.start_ts) &&
          asciiCiContains e.title "riunione beta"))).map (fun e => (e.id, e.title, e.start_ts)) :=
  (find_candidates_by_title_plain_query db2 7 "riunione beta" 0 (by decide)).1

/-- Claim C9 (counterexample): queries pass into `LIKE` unescaped, so `%`
and `_` act as wildcards rather than literal characters.  For the query
"a%z" and the stored title "abbbz": no future event clears the fuzzy
threshold (best score 50), the claim's plain case-insensitive containment
reading returns nothing, yet the fallback returns the event - `LIKE
'%a%z%'` lets the inner `%` span "bbb". -/
theorem find_candidates_like_wildcard_counterexample :
    find_best_matches partialScoreModel db9 1 "a%z" 0 = [] ∧
    find_candidates_by_title db9 1 "a%z" 0 = [(1, "abbbz", 100)] ∧
    ciContains "abbbz" "a%z" = false ∧
    find_candidates_claim db9 1 "a%z" 0 = [] ∧
    find_candidates_by_title db9 1 "a%z" 0 ≠ find_candidates_claim db9 1 "a%z" 0 := by decide
